import Mathlib

/-!
Verification development for `tidalrip.py`, a single-file client that downloads a
Tidal track through the lucida.to conversion service.

Python strings are embedded as `List Char` (one entry per code point, matching
Python's code-point semantics for `len`, slicing and iteration).  Pure functions
of the source (`validate_tidal_track_url`, `get_tidal_track_id`, the scraper's
separator logic, `create_filename`) are translated directly.  The effectful
orchestration `download_tidal_track` is embedded as a function of an explicit
environment recording the responses of the external world (scraper result,
filesystem, job-creation response, per-poll status responses, a clock giving the
elapsed wall time observed at each loop check, and the final download response);
it returns the produced outcome together with the trace of network requests it
issued.  Python's `\d` character class is modelled by `Char.isDigit` (the
decimal digits exercised by this program are ASCII).
-/

namespace Tidalrip

/-- Python strings, embedded code point by code point. -/
abbrev Str := List Char

/-- View a Lean string literal as an embedded Python string. -/
def str (s : String) : Str := s.data

/-! ## URL validator (`validate_tidal_track_url`, `get_tidal_track_id`) -/

/-- Test whether the next character exists and is a decimal digit
(the `\d` that must follow the prefix, respectively `track/`). -/
def leadDigit : Str → Bool
  | c :: _ => c.isDigit
  | [] => false

/-- Embedding of `validate_tidal_track_url`: `re.match` of the anchored pattern
`^https://listen\.tidal\.com/track/\d+` succeeds exactly when the literal
prefix is present and is immediately followed by at least one digit. -/
def validate_tidal_track_url (url : Str) : Bool :=
  (str "https://listen.tidal.com/track/").isPrefixOf url &&
    leadDigit (url.drop (str "https://listen.tidal.com/track/").length)

/-- Embedding of `get_tidal_track_id`: `re.search(r"track/(\d+)", url)` scans
start positions left to right; at the first position where the literal
`track/` is followed by at least one digit, the greedy `\d+` captures the
maximal digit run, which is returned; if no position matches, `None`. -/
def get_tidal_track_id : Str → Option Str
  | [] => none
  | c :: rest =>
    if (str "track/").isPrefixOf (c :: rest) && leadDigit ((c :: rest).drop 6) then
      some (((c :: rest).drop 6).takeWhile Char.isDigit)
    else
      get_tidal_track_id rest

/-- Spec-side reading used by C7, modelled from the claim's words: the maximal
digit run immediately following the first occurrence of the literal substring
`track/` (to be compared with the source-side `get_tidal_track_id`). -/
def digitRunAfterFirstTrackSlash : Str → Option Str
  | [] => none
  | c :: rest =>
    if (str "track/").isPrefixOf (c :: rest) then
      some (((c :: rest).drop 6).takeWhile Char.isDigit)
    else
      digitRunAfterFirstTrackSlash rest

/-- Unicode NFC normalization (`unicodedata.normalize('NFC', ·)`).  NFC is the
identity on the ASCII texts this development evaluates; it is modelled as the
identity map (the full Unicode composition tables are outside the scope of the
embedding; NFC never introduces characters of the ASCII reserved set below). -/
def nfcNormalize (s : Str) : Str := s

/-! ## Metadata scraper: separator logic of `get_track_info`

The captured page title is split by `re.search(r'(.*?)\s+by\s+(.*?)($|\s+\|)', title_text)`.
The matcher below reproduces the backtracking order of that pattern exactly:
leftmost overall match first, then shortest lazy group 1, then longest first
`\s+`, literal `by`, longest second `\s+`, shortest lazy group 2, and the
alternation `$` before `\s+\|`.  A `.` never matches a newline, so group 1
restarts after each newline that precedes any successful separator match. -/

/-- Characters matched by Python's `\s` class (ASCII part). -/
def pySpace (c : Char) : Bool :=
  c == ' ' || c == '\t' || c == '\n' || c == '\r' ||
    c == Char.ofNat 11 || c == Char.ofNat 12

/-- Test whether the head of the remaining text is the literal bar character. -/
def leadBar : Str → Bool
  | c :: _ => c == '|'
  | [] => false

/-- Match of the closing alternation `($|\s+\|)` at the current position: the
end of the text, or a nonempty whitespace run followed by a bar.  (The `\s+` is
greedy but is followed by `|`, which is not a whitespace character, so only the
maximal run can succeed.) -/
def endAltMatches (s : Str) : Bool :=
  s.isEmpty || (!(s.takeWhile pySpace).isEmpty && leadBar (s.dropWhile pySpace))

/-- Lazy capture of group 2 (`(.*?)` before `($|\s+\|)`): the shortest
newline-free run after which the closing alternation matches. -/
def lazyGroupTwo : Str → Option Str
  | [] => if endAltMatches [] then some [] else none
  | c :: rest =>
    if endAltMatches (c :: rest) then some []
    else if c == '\n' then none
    else (lazyGroupTwo rest).map (fun g => c :: g)

/-- Backtracking over the second `\s+`: the greedy run tries its maximal length
first and retreats one whitespace character at a time (never to zero). -/
def secondRunBacktrack : Nat → Str → Option Str
  | 0, _ => none
  | k + 1, s =>
    match lazyGroupTwo (s.drop (k + 1)) with
    | some g => some g
    | none => secondRunBacktrack k s

/-- Match of `\s+by\s+(.*?)($|\s+\|)` anchored at the current position,
returning the capture of group 2 on success.  The first `\s+` is followed by
the literal `by`, so only its maximal run can succeed. -/
def sepGroupTwo (s : Str) : Option Str :=
  if (s.takeWhile pySpace).isEmpty then none
  else
    let s1 := s.dropWhile pySpace
    if (str "by").isPrefixOf s1 then
      secondRunBacktrack ((s1.drop 2).takeWhile pySpace).length (s1.drop 2)
    else none

/-- Scan of `re.search` for `(.*?)\s+by\s+(.*?)($|\s+\|)`: group 1 accumulates
the newline-free text before the first position at which the separator tail
matches; a newline resets the candidate start of group 1. -/
def findBySplit : Str → Str → Option (Str × Str)
  | acc, [] =>
    match sepGroupTwo [] with
    | some g2 => some (acc.reverse, g2)
    | none => none
  | acc, c :: rest =>
    match sepGroupTwo (c :: rest) with
    | some g2 => some (acc.reverse, g2)
    | none =>
      if c == '\n' then findBySplit [] rest else findBySplit (c :: acc) rest

/-- Python `str.strip()` (whitespace model as in `pySpace`). -/
def pyStrip (s : Str) : Str :=
  ((s.dropWhile pySpace).reverse.dropWhile pySpace).reverse

/-- Model of Python `html.unescape`, restricted to the predefined XML entities;
it is the identity on ampersand-free text, which covers every string this
development evaluates. -/
def htmlUnescape : Str → Str
  | [] => []
  | '&' :: 'a' :: 'm' :: 'p' :: ';' :: rest => '&' :: htmlUnescape rest
  | '&' :: 'l' :: 't' :: ';' :: rest => '<' :: htmlUnescape rest
  | '&' :: 'g' :: 't' :: ';' :: rest => '>' :: htmlUnescape rest
  | '&' :: 'q' :: 'u' :: 'o' :: 't' :: ';' :: rest => '"' :: htmlUnescape rest
  | c :: rest => c :: htmlUnescape rest

/-- Embedding of the tail of `get_track_info` from the captured `title_text`
onward: on a separator match the stripped, unescaped, NFC-normalized captures
are returned as `(artist, track_title)`; otherwise `(None, None)`. -/
def parseTitleText (titleText : Str) : Option Str × Option Str :=
  match findBySplit [] titleText with
  | some (g1, g2) =>
    (some (nfcNormalize (htmlUnescape (pyStrip g2))),
     some (nfcNormalize (htmlUnescape (pyStrip g1))))
  | none => (none, none)

/-! ## Filename builder (`create_filename`) -/

/-- Membership in the character class removed by `re.sub(r'[<>:"/\\|?*]', '', ·)`. -/
def invalidFilenameChar (c : Char) : Bool :=
  c == '<' || c == '>' || c == ':' || c == '"' || c == '/' ||
    c == '\\' || c == '|' || c == '?' || c == '*'

/-- Python truthiness of an optional string (`if artist and title:`):
`None` and the empty string are falsy. -/
def truthyStrOpt : Option Str → Bool
  | none => false
  | some s => !s.isEmpty

/-- Embedding of `create_filename`: when both artist and title are truthy,
normalize, strip the reserved characters, compose `"<artist> - <title>"`,
truncate to 150 characters when longer, and append `.flac`; otherwise fall back
to `tidal_track_<track_id>.flac` (the fallback is not truncated). -/
def create_filename (artist title : Option Str) (track_id : Str) : Str :=
  if truthyStrOpt artist && truthyStrOpt title then
    let a := (nfcNormalize (artist.getD [])).filter (fun c => !invalidFilenameChar c)
    let t := (nfcNormalize (title.getD [])).filter (fun c => !invalidFilenameChar c)
    let filename := a ++ str " - " ++ t
    (if filename.length > 150 then filename.take 150 else filename) ++ str ".flac"
  else
    str "tidal_track_" ++ track_id ++ str ".flac"

/-! ## Conversion client (`download_tidal_track`)

The function is embedded over an explicit environment.  The try block of the
source starts at the job-creation request: `os.makedirs` (line 154) runs before
it, so a filesystem error there is modelled as an uncaught `Outcome.raise`,
while every error of the request/poll/download phase is caught by the
`except requests.exceptions.RequestException` / `except Exception` handlers and
mapped to a failure result.  The poll loop checks the elapsed wall time before
each 2-second sleep and poll; the clock field `elapsed` records the elapsed
time observed at the k-th check, and well-formedness (`EnvWf`) states the
physical fact that a check separated from the previous one by a 2-second sleep
observes at least 2 more elapsed seconds.  The model's poll loop carries fuel;
`EnvWf` makes 160 units unreachable, mirroring the real loop's guaranteed exit
by the 300-second deadline. -/

/-- Response of the job-creation POST (`/api/load`). `exn` covers a transport
failure or a non-success HTTP status raised by `raise_for_status`; `jsonErr` a
body that fails to decode (a `RequestException` in requests ≥ 2.27);
`ok` carries the decoded fields: the truthiness of `success` (absent ⇒ falsy),
`handoff` (`none` ⇒ key absent, `some []` ⇒ falsy empty string) and `name`. -/
inductive LoadResp where
  | exn (msg : Str)
  | jsonErr (msg : Str)
  | ok (succeeded : Bool) (handoff : Option Str) (serverName : Option Str)

/-- Response of one status poll: a raised transport error, a non-200 status
code (skipped by the loop), a JSON decoding error, or a decoded payload whose
optional `status` field is carried. -/
inductive PollResp where
  | exn (msg : Str)
  | httpErr (code : Nat)
  | jsonErr (msg : Str)
  | ok (status : Option Str)

/-- Whether a poll response consists of a raised request-level exception
(transport failure or JSON decoding failure), rather than a completed HTTP
exchange. -/
def PollResp.raisesExn : PollResp → Bool
  | .exn _ => true
  | .jsonErr _ => true
  | _ => false

/-- Whether a poll response carries the terminal status `completed`. -/
def PollResp.isCompleted : PollResp → Bool
  | .ok s => decide (s = some (str "completed"))
  | _ => false

/-- Response of the final streamed download: raised by `requests.get`, raised
while writing the file (caught by the generic handler), or fully written. -/
inductive DlResp where
  | exn (msg : Str)
  | ioErr (msg : Str)
  | ok

/-- The external world of one `download_tidal_track` call. -/
structure Env where
  /-- Result of `get_track_info` (internally exception-safe). -/
  trackInfo : Option Str × Option Str
  /-- Result of `os.getcwd()`. -/
  getcwd : Str
  /-- Error raised by `os.makedirs`, if any. -/
  makedirsErr : Option Str
  /-- Response of the job-creation request. -/
  load : LoadResp
  /-- Elapsed seconds `time.time() - start_time` observed at the k-th loop check. -/
  elapsed : Nat → Nat
  /-- Response of the k-th status poll. -/
  poll : Nat → PollResp
  /-- Response of the final download request. -/
  download : DlResp

/-- Well-formed clock: consecutive loop checks are separated by a
`time.sleep(2)`, so the observed elapsed time grows by at least 2. -/
def EnvWf (env : Env) : Prop :=
  ∀ k, env.elapsed k + 2 ≤ env.elapsed (k + 1)

/-- Network requests issued by one call, in order. -/
inductive Action where
  | infoRequest
  | loadRequest
  | statusPoll
  | downloadRequest
deriving DecidableEq

/-- Final control outcome of the embedded call. -/
inductive PollExit where
  | timeout
  | raised (msg : Str)
  | completed
  | fuelOut
deriving DecidableEq

/-- The structured result dictionary returned to the caller. -/
structure DownloadResult where
  tidal_url : Str
  status : Str
  message : Str
  file_path : Option Str
deriving DecidableEq

/-- How the embedded call ends: a returned result, an uncaught exception, or
exhausted model fuel (unreachable under `EnvWf`). -/
inductive Outcome where
  | ret (r : DownloadResult)
  | raise (msg : Str)
  | diverge
deriving DecidableEq

/-- Shorthand for a failure result. -/
def failRes (url msg : Str) : DownloadResult :=
  ⟨url, str "fail", msg, none⟩

/-- Embedding of the `while True` polling loop (source lines 224-246): check
the 300-second deadline, sleep, poll, skip non-200 responses, stop on raised
errors or on status `completed`.  Returns the exit kind and the number of
status polls issued. -/
def pollLoop (env : Env) : Nat → Nat → PollExit × Nat
  | 0, _ => (.fuelOut, 0)
  | fuel + 1, k =>
    if 300 < env.elapsed k then (.timeout, 0)
    else
      match env.poll k with
      | .exn m => (.raised (str "Request error: " ++ m), 1)
      | .jsonErr m => (.raised (str "Request error: " ++ m), 1)
      | .httpErr _ =>
        ((pollLoop env fuel (k + 1)).1, (pollLoop env fuel (k + 1)).2 + 1)
      | .ok s =>
        if s = some (str "completed") then (.completed, 1)
        else ((pollLoop env fuel (k + 1)).1, (pollLoop env fuel (k + 1)).2 + 1)

/-- Fuel given to the model's poll loop; a well-formed clock exceeds the
300-second deadline strictly before 160 checks. -/
def pollFuel : Nat := 160

/-- Model of the `if not output_dir` default: `None` and the empty string fall
back to the current working directory. -/
def pickDir : Option Str → Str → Str
  | none, cwd => cwd
  | some [], cwd => cwd
  | some d, _ => d

/-- Model of `os.path.join(output_dir, filename)` for the shapes arising here. -/
def joinPath (dir fname : Str) : Str :=
  match fname with
  | '/' :: _ => fname
  | _ =>
    if dir.isEmpty then fname
    else if dir.getLast? = some '/' then dir ++ fname
    else dir ++ '/' :: fname

/-- Trace of requests once the polling loop has issued `n` status polls. -/
def pollTrace (n : Nat) : List Action :=
  .infoRequest :: .loadRequest :: List.replicate n .statusPoll

/-- Embedding of `download_tidal_track`: validation, track-ID extraction,
output-directory defaulting, `os.makedirs` (outside the try block), metadata
scrape, filename construction, then the try block: job creation, the polling
loop and the streamed download, with both exception handlers mapping caught
errors to failure results. -/
def download_tidal_track (tidal_url : Str) (output_dir : Option Str) (env : Env) :
    Outcome × List Action :=
  if validate_tidal_track_url tidal_url = true then
    match get_tidal_track_id tidal_url with
    | none =>
      (.ret (failRes tidal_url (str "Could not extract track ID from URL")), [])
    | some track_id =>
      match env.makedirsErr with
      | some m => (.raise m, [])
      | none =>
        match env.load with
        | .exn m =>
          (.ret (failRes tidal_url (str "Request error: " ++ m)),
            [.infoRequest, .loadRequest])
        | .jsonErr m =>
          (.ret (failRes tidal_url (str "Request error: " ++ m)),
            [.infoRequest, .loadRequest])
        | .ok succeeded handoff _serverName =>
          if succeeded = false ∨ handoff = none ∨ handoff = some [] then
            (.ret (failRes tidal_url (str "Failed to initiate download")),
              [.infoRequest, .loadRequest])
          else
            match pollLoop env pollFuel 0 with
            | (.timeout, n) =>
              (.ret (failRes tidal_url (str "Download timed out after 5 minutes")),
                pollTrace n)
            | (.raised m, n) => (.ret (failRes tidal_url m), pollTrace n)
            | (.fuelOut, n) => (.diverge, pollTrace n)
            | (.completed, n) =>
              match env.download with
              | .exn m =>
                (.ret (failRes tidal_url (str "Request error: " ++ m)),
                  pollTrace n ++ [.downloadRequest])
              | .ioErr m =>
                (.ret (failRes tidal_url (str "Unexpected error: " ++ m)),
                  pollTrace n ++ [.downloadRequest])
              | .ok =>
                (.ret ⟨tidal_url, str "success", str "Track downloaded successfully",
                    some (joinPath (pickDir output_dir env.getcwd)
                      (create_filename env.trackInfo.1 env.trackInfo.2 track_id))⟩,
                  pollTrace n ++ [.downloadRequest])
  else
    (.ret (failRes tidal_url (str "Invalid Tidal track URL")), [])


/-- Environment of the C5 scenario: job creation succeeds, the status sequence
is `[pending, pending, completed]` at one poll every 2 seconds, and the
download succeeds. -/
def envPendingTwice : Env where
  trackInfo := (some (str "Artist"), some (str "Track"))
  getcwd := str "/home/user"
  makedirsErr := none
  load := .ok true (some (str "abc")) (some (str "katze"))
  elapsed := fun k => 2 * k
  poll := fun k =>
    if k < 2 then .ok (some (str "pending")) else .ok (some (str "completed"))
  download := .ok

/-- Environment whose polls always answer `pending`, with the clock advancing
200 seconds between checks. -/
def envAlwaysPending : Env where
  trackInfo := (none, none)
  getcwd := str "/home/user"
  makedirsErr := none
  load := .ok true (some (str "abc")) (some (str "katze"))
  elapsed := fun k => 200 * k
  poll := fun _ => .ok (some (str "pending"))
  download := .ok

/-- Environment in which `os.makedirs` raises. -/
def envMkdirFails : Env where
  trackInfo := (none, none)
  getcwd := str "/home/user"
  makedirsErr := some (str "Permission denied")
  load := .ok true (some (str "abc")) (some (str "katze"))
  elapsed := fun k => 2 * k
  poll := fun _ => .ok (some (str "completed"))
  download := .ok

/-- Environment whose job-creation response reports `success: false`. -/
def envLoadRefused : Env where
  trackInfo := (none, none)
  getcwd := str "/home/user"
  makedirsErr := none
  load := .ok false none (some (str "katze"))
  elapsed := fun k => 2 * k
  poll := fun _ => .ok (some (str "completed"))
  download := .ok


/-! ## Helper lemmas: validator and track-ID extraction -/

/-- Boolean prefix test unfolded to the existence of a suffix. -/
lemma isPrefixOf_iff_exists (p l : Str) : p.isPrefixOf l = true ↔ ∃ t, l = p ++ t := by
  rw [ List.isPrefixOf_iff_prefix]
  constructor
  · rintro ⟨t, rfl⟩
    exact ⟨t, rfl⟩
  · rintro ⟨t, rfl⟩
    exact ⟨t, rfl⟩

/-- Characterization of the validator: the anchored pattern accepts exactly the
strings made of the literal prefix, one digit, and an arbitrary remainder. -/
lemma validate_iff (url : Str) :
    validate_tidal_track_url url = true ↔
      ∃ c t, url = str "https://listen.tidal.com/track/" ++ c :: t ∧ c.isDigit = true := by
  unfold validate_tidal_track_url
  rw [Bool.and_eq_true, isPrefixOf_iff_exists]
  constructor
  · rintro ⟨⟨t, rfl⟩, hd⟩
    rw [List.drop_left] at hd
    cases t with
    | nil => simp [leadDigit] at hd
    | cons c rs => exact ⟨c, rs, rfl, by simpa [leadDigit] using hd⟩
  · rintro ⟨c, rs, rfl, hd⟩
    refine ⟨⟨c :: rs, rfl⟩, ?_⟩
    rw [List.drop_left]
    simpa [leadDigit] using hd

/-- On a validated URL the scan of `re.search(r"track/(\d+)", ·)` fires at the
`track/` segment of the literal prefix (none of the 25 earlier start positions
match) and captures the maximal digit run after it. -/
lemma trackId_prefix_walk (c : Char) (t : Str) (hc : c.isDigit = true) :
    get_tidal_track_id (str "https://listen.tidal.com/track/" ++ c :: t) =
      some ((c :: t).takeWhile Char.isDigit) := by
  show get_tidal_track_id ('h' :: 't' :: 't' :: 'p' :: 's' :: ':' :: '/' :: '/' ::
      'l' :: 'i' :: 's' :: 't' :: 'e' :: 'n' :: '.' :: 't' :: 'i' :: 'd' :: 'a' :: 'l' ::
      '.' :: 'c' :: 'o' :: 'm' :: '/' :: 't' :: 'r' :: 'a' :: 'c' :: 'k' :: '/' :: c :: t) =
    some ((c :: t).takeWhile Char.isDigit)
  simp +decide [get_tidal_track_id, str, List.isPrefixOf, leadDigit, hc]

/-- The spec-side scan fires at the same position with the same capture. -/
lemma digitRun_prefix_walk (c : Char) (t : Str) :
    digitRunAfterFirstTrackSlash (str "https://listen.tidal.com/track/" ++ c :: t) =
      some ((c :: t).takeWhile Char.isDigit) := by
  show digitRunAfterFirstTrackSlash ('h' :: 't' :: 't' :: 'p' :: 's' :: ':' :: '/' :: '/' ::
      'l' :: 'i' :: 's' :: 't' :: 'e' :: 'n' :: '.' :: 't' :: 'i' :: 'd' :: 'a' :: 'l' ::
      '.' :: 'c' :: 'o' :: 'm' :: '/' :: 't' :: 'r' :: 'a' :: 'c' :: 'k' :: '/' :: c :: t) =
    some ((c :: t).takeWhile Char.isDigit)
  simp +decide [digitRunAfterFirstTrackSlash, str, List.isPrefixOf]

/-- A validated URL always yields a track ID, namely the digit run after the
prefix. -/
lemma trackId_of_validate (url : Str) (h : validate_tidal_track_url url = true) :
    ∃ r, get_tidal_track_id url = some r ∧ digitRunAfterFirstTrackSlash url = some r := by
  obtain ⟨c, t, rfl, hc⟩ := (validate_iff url).mp h
  exact ⟨(c :: t).takeWhile Char.isDigit, trackId_prefix_walk c t hc,
    digitRun_prefix_walk c t⟩

/-- If no position offers `track/` followed by a digit, the search fails. -/
lemma trackId_none_of_no_pattern (s : Str)
    (h : ∀ i, ¬((str "track/").isPrefixOf (s.drop i) = true ∧
        leadDigit (s.drop (i + 6)) = true)) :
    get_tidal_track_id s = none := by
  induction s with
  | nil => rfl
  | cons a l ih =>
    rw [get_tidal_track_id, if_neg ?_]
    · exact ih (fun i => by simpa [List.drop_succ_cons] using h (i + 1))
    · intro hcond
      rw [Bool.and_eq_true] at hcond
      exact h 0 (by simpa using hcond)

/-! ## Helper lemmas: filename builder -/

/-- Decimal digits are not members of the removed character class. -/
lemma digit_not_invalid (c : Char) (h : c.isDigit = true) :
    invalidFilenameChar c = false := by
  simp only [invalidFilenameChar, Bool.or_eq_false_iff, beq_eq_false_iff_ne, ne_eq]
  repeat' apply And.intro
  all_goals rintro rfl
  all_goals exact absurd h (by decide)

/-- No character of a built filename belongs to the removed class (given a
digit-only track ID, as extracted by the validator). -/
lemma create_filename_invalid_free (artist title : Option Str) (track_id : Str)
    (hd : ∀ c ∈ track_id, c.isDigit = true) :
    ∀ c ∈ create_filename artist title track_id, invalidFilenameChar c = false := by
  intro c hc
  have hflac : ∀ x ∈ str ".flac", invalidFilenameChar x = false := by decide
  have hsep : ∀ x ∈ str " - ", invalidFilenameChar x = false := by decide
  have hlit : ∀ x ∈ str "tidal_track_", invalidFilenameChar x = false := by decide
  simp only [create_filename] at hc
  split at hc
  · rw [List.mem_append] at hc
    rcases hc with hc | hc
    · have hc2 : c ∈
          (nfcNormalize (artist.getD [])).filter (fun x => !invalidFilenameChar x) ++
            str " - " ++
            (nfcNormalize (title.getD [])).filter (fun x => !invalidFilenameChar x) := by
        split at hc
        · exact List.take_subset _ _ hc
        · exact hc
      rw [List.mem_append, List.mem_append] at hc2
      rcases hc2 with (hc2 | hc2) | hc2
      · exact (Bool.not_eq_true' _).mp (List.mem_filter.mp hc2).2
      · exact hsep c hc2
      · exact (Bool.not_eq_true' _).mp (List.mem_filter.mp hc2).2
    · exact hflac c hc
  · rw [List.mem_append, List.mem_append] at hc
    rcases hc with (hc | hc) | hc
    · exact hlit c hc
    · exact digit_not_invalid c (hd c hc)
    · exact hflac c hc

/-- Lengths of the two filename forms, the `.flac` extension excluded: the
sanitized form is truncated to at most 150 characters, the fallback form is
`12 + |track_id|` characters and is never truncated. -/
lemma create_filename_length (artist title : Option Str) (track_id : Str) :
    ((truthyStrOpt artist && truthyStrOpt title) = true →
      (create_filename artist title track_id).length - 5 ≤ 150) ∧
    ((truthyStrOpt artist && truthyStrOpt title) = false →
      (create_filename artist title track_id).length - 5 = 12 + track_id.length) := by
  have h5 : (str ".flac").length = 5 := by decide
  have h12 : (str "tidal_track_").length = 12 := by decide
  constructor
  · intro hb
    simp only [create_filename, if_pos hb]
    rw [List.length_append, h5]
    split
    · rw [List.length_take]
      omega
    next hgt =>
      omega
  · intro hb
    simp only [create_filename, hb, Bool.false_eq_true, if_false]
    rw [List.length_append, List.length_append, h5, h12]
    omega

/-! ## Helper lemmas: polling loop -/

/-- If every status response observed inside the 300-second window neither
raises nor reports `completed`, the loop exits by timeout (given enough fuel
for the clock to pass the deadline). -/
lemma pollLoop_timeout_of (env : Env) (hwf : EnvWf env)
    (hexn : ∀ k, env.elapsed k ≤ 300 → (env.poll k).raisesExn = false)
    (hnc : ∀ k, env.elapsed k ≤ 300 → (env.poll k).isCompleted = false) :
    ∀ fuel k, 300 < env.elapsed k + 2 * fuel →
      (pollLoop env (fuel + 1) k).1 = PollExit.timeout := by
  intro fuel
  induction fuel with
  | zero =>
    intro k hk
    simp only [Nat.mul_zero, Nat.add_zero] at hk
    simp only [pollLoop, if_pos hk]
  | succ f ih =>
    intro k hk
    by_cases h3 : 300 < env.elapsed k
    · simp only [pollLoop, if_pos h3]
    · have h3l : env.elapsed k ≤ 300 := by omega
      have hr := hexn k h3l
      have hc := hnc k h3l
      have hk1 : 300 < env.elapsed (k + 1) + 2 * f := by
        have := hwf k
        omega
      cases hpk : env.poll k with
      | exn m => rw [hpk] at hr; simp [PollResp.raisesExn] at hr
      | jsonErr m => rw [hpk] at hr; simp [PollResp.raisesExn] at hr
      | httpErr code =>
        simp only [pollLoop, if_neg h3, hpk]
        exact ih (k + 1) hk1
      | ok s =>
        rw [hpk] at hc
        simp only [PollResp.isCompleted, decide_eq_false_iff_not] at hc
        simp only [pollLoop, if_neg h3, hpk, if_neg hc]
        exact ih (k + 1) hk1

/-- With a well-formed clock the fuel supply is never exhausted: some exit
happens strictly before the fuel runs out. -/
lemma pollLoop_ne_fuelOut (env : Env) (hwf : EnvWf env) :
    ∀ fuel k, 300 < env.elapsed k + 2 * fuel →
      (pollLoop env (fuel + 1) k).1 ≠ PollExit.fuelOut := by
  intro fuel
  induction fuel with
  | zero =>
    intro k hk
    simp only [Nat.mul_zero, Nat.add_zero] at hk
    simp only [pollLoop, if_pos hk]
    intro h
    cases h
  | succ f ih =>
    intro k hk
    by_cases h3 : 300 < env.elapsed k
    · simp only [pollLoop, if_pos h3]
      intro h
      cases h
    · have hk1 : 300 < env.elapsed (k + 1) + 2 * f := by
        have := hwf k
        omega
      cases hpk : env.poll k with
      | exn m =>
        simp only [pollLoop, if_neg h3, hpk]
        intro h
        cases h
      | jsonErr m =>
        simp only [pollLoop, if_neg h3, hpk]
        intro h
        cases h
      | httpErr code =>
        simp only [pollLoop, if_neg h3, hpk]
        exact ih (k + 1) hk1
      | ok s =>
        by_cases hs : s = some (str "completed")
        · simp only [pollLoop, if_neg h3, hpk, if_pos hs]
          intro h
          cases h
        · simp only [pollLoop, if_neg h3, hpk, if_neg hs]
          exact ih (k + 1) hk1

/-- Every message the loop can raise comes from a caught request-level
exception and carries the `Request error: ` prefix of the outer handler. -/
lemma pollLoop_raised_msg (env : Env) :
    ∀ fuel k m n, pollLoop env fuel k = (PollExit.raised m, n) →
      ∃ m2, m = str "Request error: " ++ m2 := by
  intro fuel
  induction fuel with
  | zero =>
    intro k m n h
    simp only [pollLoop] at h
    cases h
  | succ f ih =>
    intro k m n h
    simp only [pollLoop] at h
    split at h
    · cases h
    · cases hpk : env.poll k with
      | exn m2 =>
        simp only [hpk] at h
        injection h with h1 h2
        injection h1 with h3
        exact ⟨m2, h3.symm⟩
      | jsonErr m2 =>
        simp only [hpk] at h
        injection h with h1 h2
        injection h1 with h3
        exact ⟨m2, h3.symm⟩
      | httpErr code =>
        simp only [hpk] at h
        injection h with h1 h2
        exact ih (k + 1) m (pollLoop env f (k + 1)).2 (by rw [← h1])
      | ok s =>
        simp only [hpk] at h
        split at h
        · cases h
        · injection h with h1 h2
          exact ih (k + 1) m (pollLoop env f (k + 1)).2 (by rw [← h1])

/-! ## Helper lemmas: messages -/

/-- A caught request-level error message is never empty. -/
lemma request_error_ne_nil (m : Str) : str "Request error: " ++ m ≠ [] := by
  show 'R' :: (str "equest error: " ++ m) ≠ []
  simp

/-- A caught generic error message is never empty. -/
lemma unexpected_error_ne_nil (m : Str) : str "Unexpected error: " ++ m ≠ [] := by
  show 'U' :: (str "nexpected error: " ++ m) ≠ []
  simp

/-- A caught request-level error message never coincides with the
track-ID-extraction failure message. -/
lemma request_error_ne_extract (m : Str) :
    str "Request error: " ++ m ≠ str "Could not extract track ID from URL" := by
  show 'R' :: (str "equest error: " ++ m) ≠ 'C' :: str "ould not extract track ID from URL"
  intro h
  injection h with h1 h2
  exact absurd h1 (by decide)

/-- A caught generic error message never coincides with the
track-ID-extraction failure message. -/
lemma unexpected_error_ne_extract (m : Str) :
    str "Unexpected error: " ++ m ≠ str "Could not extract track ID from URL" := by
  show 'U' :: (str "nexpected error: " ++ m) ≠ 'C' :: str "ould not extract track ID from URL"
  intro h
  injection h with h1 h2
  exact absurd h1 (by decide)

/-! ## Claim C4 -/

/-- C4: if the job-creation response has a falsy `success` field or omits (or
has a falsy) `handoff` field, `download_tidal_track` returns a `fail` result
with message `Failed to initiate download`, and the request trace stops at the
job-creation request: no status poll is ever attempted. -/
theorem c4_load_refusal (url : Str) (out : Option Str) (env : Env)
    (hv : validate_tidal_track_url url = true)
    (hmk : env.makedirsErr = none)
    (succeeded : Bool) (handoff serverName : Option Str)
    (hload : env.load = LoadResp.ok succeeded handoff serverName)
    (hcond : succeeded = false ∨ handoff = none ∨ handoff = some []) :
    download_tidal_track url out env =
      (Outcome.ret (failRes url (str "Failed to initiate download")),
        [Action.infoRequest, Action.loadRequest]) := by
  obtain ⟨tid, htid, -⟩ := trackId_of_validate url hv
  unfold download_tidal_track
  rw [if_pos hv]
  simp only [htid, hmk, hload, if_pos hcond]

/-- Witness for C4 at a concrete URL and environment. -/
theorem c4_load_refusal_witness :
    download_tidal_track (str "https://listen.tidal.com/track/12345") none envLoadRefused =
      (Outcome.ret (failRes (str "https://listen.tidal.com/track/12345")
          (str "Failed to initiate download")),
        [Action.infoRequest, Action.loadRequest]) :=
  c4_load_refusal (str "https://listen.tidal.com/track/12345") none envLoadRefused
    (by decide) rfl false none (some (str "katze")) rfl (Or.inl rfl)

/-! ## Claim C3 -/

/-- C3: if during the polling phase every status response observed within the
300-second window completes normally (no request-level exception — the spec's
only other polling-phase exit) and none reports status `completed`, then the
call returns a `fail` result with the timeout message and the request trace
contains no download request. -/
theorem c3_poll_timeout (url : Str) (out : Option Str) (env : Env)
    (hv : validate_tidal_track_url url = true)
    (hmk : env.makedirsErr = none)
    (hwf : EnvWf env)
    (succeeded : Bool) (handoff serverName : Option Str)
    (hload : env.load = LoadResp.ok succeeded handoff serverName)
    (hgo : ¬(succeeded = false ∨ handoff = none ∨ handoff = some []))
    (hexn : ∀ k, env.elapsed k ≤ 300 → (env.poll k).raisesExn = false)
    (hnc : ∀ k, env.elapsed k ≤ 300 → (env.poll k).isCompleted = false) :
    (download_tidal_track url out env).1 =
      Outcome.ret (failRes url (str "Download timed out after 5 minutes")) ∧
    Action.downloadRequest ∉ (download_tidal_track url out env).2 := by
  obtain ⟨tid, htid, -⟩ := trackId_of_validate url hv
  have hto : (pollLoop env pollFuel 0).1 = PollExit.timeout := by
    have hb : 300 < env.elapsed 0 + 2 * 159 := by omega
    exact pollLoop_timeout_of env hwf hexn hnc 159 0 hb
  rcases hpl : pollLoop env pollFuel 0 with ⟨e, n⟩
  rw [hpl] at hto
  have he : e = PollExit.timeout := hto
  subst he
  constructor
  · unfold download_tidal_track
    rw [if_pos hv]
    simp only [htid, hmk, hload, if_neg hgo, hpl]
  · unfold download_tidal_track
    rw [if_pos hv]
    simp only [htid, hmk, hload, if_neg hgo, hpl]
    simp [pollTrace, List.mem_replicate]

/-- Witness for C3: polls always answer `pending` while the clock advances 200
seconds per check. -/
theorem c3_poll_timeout_witness :
    (download_tidal_track (str "https://listen.tidal.com/track/12345") none envAlwaysPending).1 =
      Outcome.ret (failRes (str "https://listen.tidal.com/track/12345")
        (str "Download timed out after 5 minutes")) ∧
    Action.downloadRequest ∉
      (download_tidal_track (str "https://listen.tidal.com/track/12345") none envAlwaysPending).2 :=
  c3_poll_timeout (str "https://listen.tidal.com/track/12345") none envAlwaysPending
    (by decide) rfl
    (fun k => by show 200 * k + 2 ≤ 200 * (k + 1); omega)
    true (some (str "abc")) (some (str "katze")) rfl (by decide)
    (fun _ _ => rfl) (fun _ _ => rfl)

/-! ## Claim C5 -/

/-- C5: for the job-status sequence `[pending, pending, completed]` delivered
one per 2-second poll, the conversion client issues exactly three status polls,
then exactly one download request after the third poll, and no request at all
after it (the trace ends with the download request). -/
theorem c5_three_polls_then_download :
    (download_tidal_track (str "https://listen.tidal.com/track/12345") none envPendingTwice).2 =
      [Action.infoRequest, Action.loadRequest, Action.statusPoll, Action.statusPoll,
        Action.statusPoll, Action.downloadRequest] ∧
    (download_tidal_track (str "https://listen.tidal.com/track/12345") none
      envPendingTwice).2.count Action.statusPoll = 3 ∧
    (download_tidal_track (str "https://listen.tidal.com/track/12345") none
      envPendingTwice).2.count Action.downloadRequest = 1 := by
  decide

/-! ## Claim C1 -/

/-- C1 counterexample: when `os.makedirs` fails on a validated URL, the call
terminates by an uncaught exception instead of returning the structured result
dictionary — the directory-creation call sits outside the try block. -/
theorem c1_mkdir_uncaught :
    (download_tidal_track (str "https://listen.tidal.com/track/12345") (some (str "out"))
        envMkdirFails).1 = Outcome.raise (str "Permission denied") := by
  decide

/-- C1 as amended: provided the `os.makedirs` call succeeds, the call always
returns the structured result dictionary — every abort-class error of the
request/poll/download phase (network failure, non-success HTTP status raising,
JSON decode failure, file write failure) is caught and mapped to a failure
result carrying a non-empty descriptive message. -/
theorem c1_catches_all_after_mkdir (url : Str) (out : Option Str) (env : Env)
    (hmk : env.makedirsErr = none) (hwf : EnvWf env) :
    ∃ r, (download_tidal_track url out env).1 = Outcome.ret r ∧
      (r.status = str "success" ∨ r.status = str "fail") ∧ r.message ≠ [] := by
  by_cases hv : validate_tidal_track_url url = true
  · obtain ⟨tid, htid, -⟩ := trackId_of_validate url hv
    cases hload : env.load with
    | exn m =>
      refine ⟨failRes url (str "Request error: " ++ m), ?_, Or.inr rfl,
        request_error_ne_nil m⟩
      unfold download_tidal_track
      rw [if_pos hv]
      simp only [htid, hmk, hload]
    | jsonErr m =>
      refine ⟨failRes url (str "Request error: " ++ m), ?_, Or.inr rfl,
        request_error_ne_nil m⟩
      unfold download_tidal_track
      rw [if_pos hv]
      simp only [htid, hmk, hload]
    | ok succeeded handoff serverName =>
      by_cases hcond : succeeded = false ∨ handoff = none ∨ handoff = some []
      · refine ⟨failRes url (str "Failed to initiate download"), ?_, Or.inr rfl,
          (by decide : str "Failed to initiate download" ≠ [])⟩
        unfold download_tidal_track
        rw [if_pos hv]
        simp only [htid, hmk, hload, if_pos hcond]
      · rcases hpl : pollLoop env pollFuel 0 with ⟨e, n⟩
        have hnf : e ≠ PollExit.fuelOut := by
          have hne : (pollLoop env pollFuel 0).1 ≠ PollExit.fuelOut :=
            pollLoop_ne_fuelOut env hwf 159 0 (by omega)
          rw [hpl] at hne
          exact hne
        cases e with
        | timeout =>
          refine ⟨failRes url (str "Download timed out after 5 minutes"), ?_,
            Or.inr rfl, (by decide : str "Download timed out after 5 minutes" ≠ [])⟩
          unfold download_tidal_track
          rw [if_pos hv]
          simp only [htid, hmk, hload, if_neg hcond, hpl]
        | raised m =>
          obtain ⟨m2, rfl⟩ := pollLoop_raised_msg env pollFuel 0 m n hpl
          refine ⟨failRes url (str "Request error: " ++ m2), ?_, Or.inr rfl,
            request_error_ne_nil m2⟩
          unfold download_tidal_track
          rw [if_pos hv]
          simp only [htid, hmk, hload, if_neg hcond, hpl]
        | fuelOut => exact absurd rfl hnf
        | completed =>
          cases hdl : env.download with
          | exn m =>
            refine ⟨failRes url (str "Request error: " ++ m), ?_, Or.inr rfl,
              request_error_ne_nil m⟩
            unfold download_tidal_track
            rw [if_pos hv]
            simp only [htid, hmk, hload, if_neg hcond, hpl, hdl]
          | ioErr m =>
            refine ⟨failRes url (str "Unexpected error: " ++ m), ?_, Or.inr rfl,
              unexpected_error_ne_nil m⟩
            unfold download_tidal_track
            rw [if_pos hv]
            simp only [htid, hmk, hload, if_neg hcond, hpl, hdl]
          | ok =>
            refine ⟨⟨url, str "success", str "Track downloaded successfully",
                some (joinPath (pickDir out env.getcwd)
                  (create_filename env.trackInfo.1 env.trackInfo.2 tid))⟩, ?_,
              Or.inl rfl, (by decide : str "Track downloaded successfully" ≠ [])⟩
            unfold download_tidal_track
            rw [if_pos hv]
            simp only [htid, hmk, hload, if_neg hcond, hpl, hdl]
  · refine ⟨failRes url (str "Invalid Tidal track URL"), ?_, Or.inr rfl,
      (by decide : str "Invalid Tidal track URL" ≠ [])⟩
    unfold download_tidal_track
    rw [if_neg hv]

/-- Witness for the amended C1 at a concrete environment. -/
theorem c1_catches_all_after_mkdir_witness :
    ∃ r, (download_tidal_track (str "https://listen.tidal.com/track/12345") none
        envPendingTwice).1 = Outcome.ret r ∧
      (r.status = str "success" ∨ r.status = str "fail") ∧ r.message ≠ [] :=
  c1_catches_all_after_mkdir (str "https://listen.tidal.com/track/12345") none
    envPendingTwice rfl (fun k => by show 2 * k + 2 ≤ 2 * (k + 1); omega)

/-! ## Claim C10 -/

/-- C10: every URL accepted by the validator yields a track ID, so the
`Could not extract track ID from URL` failure branch is unreachable for
validated inputs: no returned result ever carries that message. -/
theorem c10_validated_id_always_extracts :
    ∀ url, validate_tidal_track_url url = true →
      (get_tidal_track_id url).isSome = true ∧
      ∀ out env r, (download_tidal_track url out env).1 = Outcome.ret r →
        r.message ≠ str "Could not extract track ID from URL" := by
  intro url hv
  obtain ⟨tid, htid, -⟩ := trackId_of_validate url hv
  refine ⟨by rw [htid]; rfl, ?_⟩
  intro out env r hr
  unfold download_tidal_track at hr
  rw [if_pos hv] at hr
  simp only [htid] at hr
  cases hmk : env.makedirsErr with
  | some m =>
    simp only [hmk] at hr
    simp at hr
  | none =>
    simp only [hmk] at hr
    cases hload : env.load with
    | exn m =>
      simp only [hload] at hr
      injection hr with h
      subst h
      exact request_error_ne_extract m
    | jsonErr m =>
      simp only [hload] at hr
      injection hr with h
      subst h
      exact request_error_ne_extract m
    | ok succeeded handoff serverName =>
      simp only [hload] at hr
      by_cases hcond : succeeded = false ∨ handoff = none ∨ handoff = some []
      · rw [if_pos hcond] at hr
        injection hr with h
        subst h
        exact (by decide :
          str "Failed to initiate download" ≠ str "Could not extract track ID from URL")
      · rw [if_neg hcond] at hr
        rcases hpl : pollLoop env pollFuel 0 with ⟨e, n⟩
        rw [hpl] at hr
        cases e with
        | timeout =>
          injection hr with h
          subst h
          exact (by decide :
            str "Download timed out after 5 minutes" ≠ str "Could not extract track ID from URL")
        | raised m =>
          obtain ⟨m2, rfl⟩ := pollLoop_raised_msg env pollFuel 0 m n hpl
          injection hr with h
          subst h
          exact request_error_ne_extract m2
        | fuelOut => simp at hr
        | completed =>
          cases hdl : env.download with
          | exn m =>
            simp only [hdl] at hr
            injection hr with h
            subst h
            exact request_error_ne_extract m
          | ioErr m =>
            simp only [hdl] at hr
            injection hr with h
            subst h
            exact unexpected_error_ne_extract m
          | ok =>
            simp only [hdl] at hr
            injection hr with h
            subst h
            exact (by decide :
              str "Track downloaded successfully" ≠ str "Could not extract track ID from URL")

/-- Witness for C10 at a concrete validated URL. -/
theorem c10_validated_id_always_extracts_witness :
    validate_tidal_track_url (str "https://listen.tidal.com/track/999") = true ∧
    ((get_tidal_track_id (str "https://listen.tidal.com/track/999")).isSome = true ∧
      ∀ out env r,
        (download_tidal_track (str "https://listen.tidal.com/track/999") out env).1 =
          Outcome.ret r →
        r.message ≠ str "Could not extract track ID from URL") :=
  ⟨by decide, c10_validated_id_always_extracts (str "https://listen.tidal.com/track/999")
    (by decide)⟩

/-! ## Claim C2 -/

/-- C2 counterexample: the track-ID fallback form is not truncated, so for a
139-digit track ID the filename length excluding the 5-character `.flac`
extension is 151 and exceeds the claimed 150-character bound. -/
theorem c2_fallback_exceeds_bound :
    150 < (create_filename none none (List.replicate 139 '0')).length - 5 := by
  have h : create_filename none none (List.replicate 139 '0') =
      str "tidal_track_" ++ List.replicate 139 '0' ++ str ".flac" := rfl
  rw [h, List.length_append, List.length_append, List.length_replicate]
  decide

/-- C2 as amended: the returned filename never contains a reserved character
(for the digit-string track IDs extracted by the validator); the 150-character
bound on the length excluding the `.flac` extension holds for the sanitized
`artist - title` form, while the untruncated fallback form has exactly
`12 + |trackID|` characters before the extension (and hence respects no fixed
bound for long track IDs). -/
theorem c2_filename_sanitization (artist title : Option Str) (track_id : Str)
    (hd : ∀ c ∈ track_id, c.isDigit = true) :
    (∀ c ∈ create_filename artist title track_id, invalidFilenameChar c = false) ∧
    ((truthyStrOpt artist && truthyStrOpt title) = true →
      (create_filename artist title track_id).length - 5 ≤ 150) ∧
    ((truthyStrOpt artist && truthyStrOpt title) = false →
      (create_filename artist title track_id).length - 5 = 12 + track_id.length) :=
  ⟨create_filename_invalid_free artist title track_id hd,
   (create_filename_length artist title track_id).1,
   (create_filename_length artist title track_id).2⟩

/-- Witness for the amended C2 at concrete metadata. -/
theorem c2_filename_sanitization_witness :
    (∀ c ∈ str "12345", c.isDigit = true) ∧
    ((∀ c ∈ create_filename (some (str "AC/DC")) (some (str "T.N.T."))
        (str "12345"), invalidFilenameChar c = false) ∧
      ((truthyStrOpt (some (str "AC/DC")) && truthyStrOpt (some (str "T.N.T."))) = true →
        (create_filename (some (str "AC/DC")) (some (str "T.N.T.")) (str "12345")).length - 5
          ≤ 150) ∧
      ((truthyStrOpt (some (str "AC/DC")) && truthyStrOpt (some (str "T.N.T."))) = false →
        (create_filename (some (str "AC/DC")) (some (str "T.N.T.")) (str "12345")).length - 5
          = 12 + (str "12345").length)) :=
  ⟨by decide,
   c2_filename_sanitization (some (str "AC/DC")) (some (str "T.N.T.")) (str "12345")
     (by decide)⟩

/-! ## Claim C6 -/

/-- C6: the validator returns true exactly for the strings that begin with the
literal prefix `https://listen.tidal.com/track/` immediately followed by at
least one decimal digit; in particular every other string is rejected. -/
theorem c6_validator_characterization (url : Str) :
    validate_tidal_track_url url = true ↔
      ∃ c t, url = str "https://listen.tidal.com/track/" ++ c :: t ∧ c.isDigit = true :=
  validate_iff url

/-! ## Claim C7 -/

/-- C7: for every URL accepted by the validator, `get_tidal_track_id` returns
(as some value) exactly the maximal digit run immediately following the first
occurrence of the literal substring `track/` (the spec-side scan
`digitRunAfterFirstTrackSlash`); and for every string offering no digit run
after any `track/` occurrence it returns nothing. -/
theorem c7_track_id_extraction :
    (∀ url, validate_tidal_track_url url = true →
      ∃ r, get_tidal_track_id url = some r ∧
        digitRunAfterFirstTrackSlash url = some r) ∧
    (∀ s, (∀ i, ¬((str "track/").isPrefixOf (s.drop i) = true ∧
        leadDigit (s.drop (i + 6)) = true)) → get_tidal_track_id s = none) :=
  ⟨fun url hv => trackId_of_validate url hv,
   fun s h => trackId_none_of_no_pattern s h⟩

/-- Witness for C7: a concrete validated URL on the first conjunct and the
empty string on the second. -/
theorem c7_track_id_extraction_witness :
    (validate_tidal_track_url (str "https://listen.tidal.com/track/42x") = true ∧
      ∃ r, get_tidal_track_id (str "https://listen.tidal.com/track/42x") = some r ∧
        digitRunAfterFirstTrackSlash (str "https://listen.tidal.com/track/42x") = some r) ∧
    ((∀ i, ¬((str "track/").isPrefixOf (([] : Str).drop i) = true ∧
        leadDigit (([] : Str).drop (i + 6)) = true)) ∧
      get_tidal_track_id ([] : Str) = none) :=
  ⟨⟨by decide, c7_track_id_extraction.1 (str "https://listen.tidal.com/track/42x")
      (by decide)⟩,
   ⟨fun i => by rw [List.drop_nil, List.drop_nil]; decide,
    c7_track_id_extraction.2 []
      (fun i => by rw [List.drop_nil, List.drop_nil]; decide)⟩⟩

/-! ## Claim C8 -/

/-- C8: applied to the captured metadata text
`Shape of You by Ed Sheeran | Lucida`, the scraper separator logic yields the
title `Shape of You` and the artist `Ed Sheeran`. -/
theorem c8_separator_logic :
    parseTitleText (str "Shape of You by Ed Sheeran | Lucida") =
      (some (str "Ed Sheeran"), some (str "Shape of You")) := by
  decide

/-! ## Claim C9 -/

/-- C9: for every digit-string track ID, whenever the artist or the title is
absent the built filename is exactly the fallback
`tidal_track_<trackID>.flac`. -/
theorem c9_fallback_form (artist title : Option Str) (track_id : Str)
    (_hd : ∀ c ∈ track_id, c.isDigit = true)
    (habs : artist = none ∨ title = none) :
    create_filename artist title track_id =
      str "tidal_track_" ++ track_id ++ str ".flac" := by
  rcases habs with rfl | rfl
  · simp [create_filename, truthyStrOpt]
  · simp [create_filename, truthyStrOpt]

/-- Witness for C9 with an absent artist. -/
theorem c9_fallback_form_witness :
    ((∀ c ∈ str "12345", c.isDigit = true) ∧
      ((none : Option Str) = none ∨ (some (str "Title") : Option Str) = none)) ∧
    create_filename none (some (str "Title")) (str "12345") =
      str "tidal_track_" ++ str "12345" ++ str ".flac" :=
  ⟨⟨by decide, Or.inl rfl⟩,
   c9_fallback_form none (some (str "Title")) (str "12345") (by decide) (Or.inl rfl)⟩

end Tidalrip
